import Mathlib

/-!
Shallow embedding of `reviewboard/webapi/resources/review_reply_file_attachment_comment.py`
(`ReviewReplyFileAttachmentCommentResource`): the data model of reply comments,
the scoped list query `get_queryset`, and the `create` / `update` handlers,
together with proofs of the behavioural properties of the resource.

External collaborators (entity lookups, the permission predicate, and the
shared `update_comment` routine of the base resource) are not part of the
source file; they are modelled explicitly, marked `Modelled from the spec:`.
-/

namespace ReviewReply

/-- Text interpretation mode of a comment: `text_type` is `plain` or `markdown`. -/
inductive TextType where
  | plain
  | markdown
deriving DecidableEq, Repr

/-- A file-attachment comment row.  `reply_to = some i` makes it a reply to the
original comment with id `i`; `review` is the id of the owning review (for a
reply comment, the owning review reply). -/
structure Comment where
  id : Nat
  file_attachment : Nat
  reply_to : Option Nat
  review : Nat
  text : String
  text_type : TextType
deriving DecidableEq, Repr

/-- A review row.  `base_reply_to = some r` makes this review a reply to the
review with id `r` (the `review__base_reply_to` relation used by
`get_queryset`). -/
structure Review where
  id : Nat
  base_reply_to : Option Nat
deriving DecidableEq, Repr

/-- The relational state the resource operates on: review-request ids, review
rows (parent reviews and replies alike), comment rows, the id the store will
assign to the next inserted comment, and a counter of `reply.save()` calls
(used to observe on which paths the reply object itself is persisted). -/
structure State where
  review_requests : List Nat
  reviews : List Review
  comments : List Comment
  next_id : Nat
  reply_saves : Nat
deriving DecidableEq, Repr

/-- The optional `text` / `text_type` request fields handed to the shared
update routine via `**kwargs`. -/
structure CommentFields where
  text : Option String
  text_type : Option TextType
deriving DecidableEq, Repr

/-- Characters that carry meaning in Markdown and are protected by a
backslash when plain text is escaped. -/
def isMarkdownSpecial (c : Char) : Bool :=
  c = '\\' || c = '`' || c = '*' || c = '_' || c = '{' || c = '}' ||
  c = '[' || c = ']' || c = '(' || c = ')' || c = '>' || c = '#' ||
  c = '+' || c = '-' || c = '.' || c = '!'

/-- Modelled from the spec: the markdown-escaping half of the text policy of
the shared update routine (`update_comment` of the base resource, not in the
source file).  Every markdown-special character is prefixed with a backslash
so existing plain text is "not inadvertently interpreted as markdown
syntax". -/
def escapeChars : List Char → List Char
  | [] => []
  | c :: rest =>
    if isMarkdownSpecial c then '\\' :: c :: escapeChars rest
    else c :: escapeChars rest

/-- Modelled from the spec: the unescaping half of the text policy — a
backslash protecting a markdown-special character is removed ("switching to
plain without new text unescapes previously-escaped text"). -/
def unescapeChars : List Char → List Char
  | [] => []
  | [c] => [c]
  | c1 :: c2 :: rest =>
    if c1 = '\\' && isMarkdownSpecial c2 then c2 :: unescapeChars rest
    else c1 :: unescapeChars (c2 :: rest)

/-- Escape a string for markdown (see `escapeChars`). -/
def escapeMarkdown (s : String) : String :=
  ⟨escapeChars s.data⟩

/-- Unescape a markdown-escaped string (see `unescapeChars`). -/
def unescapeMarkdown (s : String) : String :=
  ⟨unescapeChars s.data⟩

/-- Modelled from the spec: the shared update routine
`update_comment(comment, is_reply=True, **kwargs)` of
`BaseFileAttachmentCommentResource`, which is not in the source file.  It
touches only `text` and `text_type`: new text wins when supplied; otherwise
switching `plain → markdown` escapes the existing text and switching
`markdown → plain` unescapes it. -/
def update_comment (c : Comment) (f : CommentFields) : Comment :=
  let newType := f.text_type.getD c.text_type
  let newText :=
    match f.text with
    | some t => t
    | none =>
      match c.text_type, newType with
      | .plain, .markdown => escapeMarkdown c.text
      | .markdown, .plain => unescapeMarkdown c.text
      | _, _ => c.text
  { c with text := newText, text_type := newType }

/-- Resolve a review row by primary key (the `review__base_reply_to` join of
the ORM filter follows the `review` foreign key to its row). -/
def lookupReview (s : State) (rid : Nat) : Option Review :=
  s.reviews.find? (fun r => r.id == rid)

/-- `get_queryset(request, review_id, reply_id)`: the base queryset filtered
by `review=reply_id, review__base_reply_to=review_id` — exactly the comments
owned by the reply `reply_id` whose owning review replies to `review_id`. -/
def get_queryset (s : State) (review_id reply_id : Nat) : List Comment :=
  s.comments.filter (fun c =>
    c.review == reply_id &&
      ((lookupReview s c.review).map Review.base_reply_to == some (some review_id)))

/-- Modelled from the spec: `resources.review_request.get_object` — resolves
the review request named in the request path, raising `DoesNotExist` (here:
`none`) when absent. -/
def find_review_request (s : State) (rrid : Nat) : Option Nat :=
  s.review_requests.find? (fun r => r == rrid)

/-- Modelled from the spec: `resources.review_reply.get_object` — resolves the
reply named in the request path: a review whose id is `reply_id` and whose
`base_reply_to` is the parent review `review_id`. -/
def find_reply (s : State) (review_id reply_id : Nat) : Option Review :=
  s.reviews.find? (fun r => r.id == reply_id && r.base_reply_to == some review_id)

/-- Modelled from the spec: `resources.review_file_attachment_comment.get_object`
with `comment_id=reply_to_id` — resolves the original comment being replied
to. -/
def find_orig (s : State) (cid : Nat) : Option Comment :=
  s.comments.find? (fun c => c.id == cid)

/-- The lookup-before-insert query of `create`:
`self._get_queryset(...).filter(Q(reply_to=comment) & Q(review=reply))`. -/
def existing_q (s : State) (review_id reply_id : Nat) (orig : Comment)
    (reply : Review) : List Comment :=
  (get_queryset s review_id reply_id).filter
    (fun c => c.reply_to == some orig.id && c.review == reply.id)

/-- `comment.save()`: persist an updated comment row by primary key. -/
def replace_comment (s : State) (cid : Nat) (c2 : Comment) : State :=
  { s with comments := s.comments.map (fun d => if d.id == cid then c2 else d) }

/-- Outcome of the `create` handler: the HTTP status, payload and (for the
mutating outcomes) the successor state.  `serverError` is the uncaught
`MultipleObjectsReturned` exception of `q.get()` when more than one existing
reply comment matches the pair. -/
inductive CreateResult where
  | notFound
  | permissionDenied
  | invalidFormData (field : String)
  | created (c : Comment) (s : State)
  | seeOther (c : Comment) (location : Nat) (s : State)
  | serverError
deriving DecidableEq, Repr

/-- Outcome of the `update` handler. -/
inductive UpdateResult where
  | notFound
  | permissionDenied
  | ok (c : Comment) (s : State)
deriving DecidableEq, Repr

/-- `create(request, reply_to_id, ...)`: resolve the review request and the
reply (404 on failure), check modify permission on the reply (403 on
failure, modelled by membership of the reply id in `permitted`), resolve the
original comment by `reply_to_id` (400 naming the field on failure), then
look up the existing reply comment for `(reply_to=orig, review=reply)`:
if none, build a new comment copying the original's file attachment and
pointing `reply_to` at it, run the shared update routine, add it to the
reply's comment collection (setting its `review` foreign key), save the
reply, and answer 201; if one exists, run the shared update routine on it
and answer 303 with a `Location` naming that comment. -/
def create (s : State) (permitted : List Nat)
    (rrid review_id reply_id reply_to_id : Nat)
    (fields : CommentFields) : CreateResult :=
  match find_review_request s rrid with
  | none => .notFound
  | some _ =>
    match find_reply s review_id reply_id with
    | none => .notFound
    | some reply =>
      if reply_id ∈ permitted then
        match find_orig s reply_to_id with
        | none => .invalidFormData "reply_to_id"
        | some orig =>
          match existing_q s review_id reply_id orig reply with
          | [] =>
            let nc0 : Comment :=
              { id := s.next_id, file_attachment := orig.file_attachment,
                reply_to := some orig.id, review := 0,
                text := "", text_type := .plain }
            let nc1 := update_comment nc0 fields
            let nc := { nc1 with review := reply.id }
            .created nc
              { s with comments := s.comments ++ [nc],
                       next_id := s.next_id + 1,
                       reply_saves := s.reply_saves + 1 }
          | [c] =>
            let c2 := update_comment c fields
            .seeOther c2 c2.id (replace_comment s c.id c2)
          | _ => .serverError
      else .permissionDenied

/-- `self.get_object(...)` in `update`: resolve the target comment within the
scoped queryset by its id from the request path. -/
def find_file_comment (s : State) (review_id reply_id comment_id : Nat) :
    Option Comment :=
  (get_queryset s review_id reply_id).find? (fun c => c.id == comment_id)

/-- `update(request, ...)`: resolve the review request, the reply and the
target comment (404 if any is absent), check modify permission on the reply
(403 on failure), then run the shared update routine on the comment and
answer 200 with it. -/
def update (s : State) (permitted : List Nat)
    (rrid review_id reply_id comment_id : Nat)
    (fields : CommentFields) : UpdateResult :=
  match find_review_request s rrid with
  | none => .notFound
  | some _ =>
    match find_reply s review_id reply_id with
    | none => .notFound
    | some _reply =>
      match find_file_comment s review_id reply_id comment_id with
      | none => .notFound
      | some c =>
        if reply_id ∈ permitted then
          let c2 := update_comment c fields
          .ok c2 (replace_comment s c.id c2)
        else .permissionDenied

/-- The state after a `create` call: the successor state on the mutating
outcomes, the original state on the error outcomes (no partial state). -/
def createState (r : CreateResult) (s : State) : State :=
  match r with
  | .created _ s2 => s2
  | .seeOther _ _ s2 => s2
  | _ => s

/-- The state after an `update` call. -/
def updateState (r : UpdateResult) (s : State) : State :=
  match r with
  | .ok _ s2 => s2
  | _ => s

/-- Number of reply comments stored for a `(review, reply_to)` pair. -/
def pairCount (s : State) (rv rt : Nat) : Nat :=
  (s.comments.filter (fun c => c.review == rv && c.reply_to == some rt)).length

/-- At most one reply comment per `(review, reply_to)` pair. -/
def uniquePairs (s : State) : Prop :=
  ∀ rv rt, pairCount s rv rt ≤ 1

/-- Primary keys are unique (no two review rows and no two comment rows share
an id) and the next id the store will assign is fresh. -/
def StateWF (s : State) : Prop :=
  (s.reviews.map Review.id).Nodup ∧ (s.comments.map Comment.id).Nodup ∧
  ∀ c ∈ s.comments, c.id < s.next_id

/-- Executable check equivalent to `uniquePairs` (see `uniquePairs_of_B`). -/
def uniquePairsB (s : State) : Bool :=
  s.comments.all (fun c =>
    (s.comments.filter
      (fun d => d.review == c.review && d.reply_to == c.reply_to)).length ≤ 1)

lemma unescapeChars_escapeChars (l : List Char) :
    unescapeChars (escapeChars l) = l := by
  induction l with
  | nil => rfl
  | cons c rest ih =>
    by_cases h : isMarkdownSpecial c = true
    · rw [escapeChars, if_pos h, unescapeChars, if_pos (by simp [h]), ih]
    · rw [escapeChars, if_neg h]
      have hc : ¬c = '\\' := by
        intro hcc
        exact h (by rw [hcc]; rfl)
      cases he : escapeChars rest with
      | nil =>
        rw [he] at ih
        have : rest = [] := by simpa [unescapeChars] using ih.symm
        rw [this, unescapeChars]
      | cons c2 l2 =>
        rw [he] at ih
        rw [unescapeChars, if_neg (by simp [hc]), ih]

lemma unescapeMarkdown_escapeMarkdown (t : String) :
    unescapeMarkdown (escapeMarkdown t) = t := by
  cases t with
  | mk data => simp [unescapeMarkdown, escapeMarkdown, unescapeChars_escapeChars]

lemma find_reply_spec {s : State} {rid pid : Nat} {reply : Review}
    (h : find_reply s rid pid = some reply) :
    reply ∈ s.reviews ∧ reply.id = pid ∧ reply.base_reply_to = some rid := by
  refine ⟨List.mem_of_find?_eq_some h, ?_, ?_⟩
  · have := List.find?_some h
    simp only [Bool.and_eq_true, beq_iff_eq] at this
    exact this.1
  · have := List.find?_some h
    simp only [Bool.and_eq_true, beq_iff_eq] at this
    exact this.2

lemma find_id_first {l : List Review} (hnd : (l.map Review.id).Nodup)
    {r : Review} (hr : r ∈ l) :
    l.find? (fun x => x.id == r.id) = some r := by
  induction l with
  | nil => cases hr
  | cons a t ih =>
    rw [List.map_cons, List.nodup_cons] at hnd
    rcases List.mem_cons.mp hr with h | h
    · subst h
      exact List.find?_cons_of_pos _ (by simp)
    · by_cases ha : a.id = r.id
      · exact absurd (ha ▸ List.mem_map_of_mem Review.id h) hnd.1
      · rw [List.find?_cons_of_neg _ (by simp [ha])]
        exact ih hnd.2 h

lemma lookupReview_of_wf {s : State} (hnd : (s.reviews.map Review.id).Nodup)
    {r : Review} (hr : r ∈ s.reviews) : lookupReview s r.id = some r :=
  find_id_first hnd hr

lemma comment_eq_of_id_eq {l : List Comment} (hnd : (l.map Comment.id).Nodup)
    {c d : Comment} (hc : c ∈ l) (hd : d ∈ l) (h : d.id = c.id) : d = c :=
  List.inj_on_of_nodup_map hnd hd hc h

lemma uniquePairs_of_short {s : State} (h : s.comments.length ≤ 1) :
    uniquePairs s := by
  intro rv rt
  exact le_trans (List.length_filter_le _ _) h

lemma uniquePairs_of_B {s : State} (h : uniquePairsB s = true) :
    uniquePairs s := by
  intro rv rt
  by_cases hz : pairCount s rv rt = 0
  · omega
  · obtain ⟨c, hc⟩ := List.exists_mem_of_length_pos (Nat.pos_of_ne_zero hz)
    rw [List.mem_filter] at hc
    have hcc := hc.2
    simp only [Bool.and_eq_true, beq_iff_eq] at hcc
    have hall := (List.all_eq_true.mp h) c hc.1
    simp only [decide_eq_true_eq] at hall
    unfold pairCount
    rw [List.filter_congr (q := fun d => d.review == c.review && d.reply_to == c.reply_to)
      (fun d _ => by rw [hcc.1, hcc.2])]
    exact hall

/-- Membership of the existing-pair query, in terms of the raw fields. -/
lemma mem_existing_q {s : State} {review_id reply_id : Nat} {orig : Comment}
    {reply : Review} (hnd : (s.reviews.map Review.id).Nodup)
    (hreply : find_reply s review_id reply_id = some reply) {d : Comment}
    (hd : d ∈ s.comments) (hrev : d.review = reply.id)
    (hrt : d.reply_to = some orig.id) :
    d ∈ existing_q s review_id reply_id orig reply := by
  obtain ⟨hmem, hid, hbase⟩ := find_reply_spec hreply
  rw [existing_q, List.mem_filter]
  refine ⟨?_, by simp [hrev, hrt]⟩
  rw [get_queryset, List.mem_filter]
  refine ⟨hd, ?_⟩
  have hlook : lookupReview s d.review = some reply := by
    rw [hrev]
    exact lookupReview_of_wf hnd hmem
  simp only [hrev, hid] at hlook
  simp [hlook, hrev, hid, hbase]

/-- A concrete sample store: review request 1, parent review 10 with draft
reply 20, and an original file-attachment comment 100 on review 10. -/
def sampleState : State :=
  { review_requests := [1],
    reviews := [⟨10, none⟩, ⟨20, some 10⟩],
    comments := [⟨100, 7, none, 10, "orig", .plain⟩],
    next_id := 101,
    reply_saves := 0 }

/-- `sampleState` after a first successful reply: comment 101 is the reply
comment for the pair `(review 20, reply_to 100)`. -/
def sampleState2 : State :=
  { review_requests := [1],
    reviews := [⟨10, none⟩, ⟨20, some 10⟩],
    comments := [⟨100, 7, none, 10, "orig", .plain⟩,
                 ⟨101, 7, some 100, 20, "first reply", .plain⟩],
    next_id := 102,
    reply_saves := 1 }

/-- C5: for every `(reviewId, replyId)` pair, `get_queryset` returns exactly
the comments whose `review` equals `replyId` and whose owning review's
`base_reply_to` equals `reviewId`; comments of any other review, or of a
reply to a different parent review, are excluded. -/
theorem get_queryset_exact (s : State) (review_id reply_id : Nat) (c : Comment) :
    c ∈ get_queryset s review_id reply_id ↔
      c ∈ s.comments ∧ c.review = reply_id ∧
        ∃ r, lookupReview s c.review = some r ∧
          r.base_reply_to = some review_id := by
  simp [get_queryset, List.mem_filter, and_assoc]

/-- C1: when the review request and reply resolve, the caller may modify the
reply, the original comment resolves, and no reply comment exists yet for
the pair, `create` answers 201 with a new comment whose `file_attachment`
is the original's, whose `reply_to` is the original, and whose owning
review is the reply; the comment is appended to the store and the reply is
saved. -/
theorem create_new_reply_comment
    (s : State) (permitted : List Nat)
    (rrid review_id reply_id reply_to_id : Nat) (fields : CommentFields)
    (reply : Review) (orig : Comment)
    (hrr : (find_review_request s rrid).isSome = true)
    (hreply : find_reply s review_id reply_id = some reply)
    (hperm : reply_id ∈ permitted)
    (horig : find_orig s reply_to_id = some orig)
    (hnew : existing_q s review_id reply_id orig reply = []) :
    ∃ c s2,
      create s permitted rrid review_id reply_id reply_to_id fields =
        .created c s2 ∧
      c.file_attachment = orig.file_attachment ∧
      c.reply_to = some orig.id ∧
      c.review = reply.id ∧
      s2.comments = s.comments ++ [c] ∧
      s2.reply_saves = s.reply_saves + 1 := by
  obtain ⟨rr, hrr2⟩ := Option.isSome_iff_exists.mp hrr
  simp only [create, hrr2, hreply, horig, hnew, if_pos hperm]
  exact ⟨_, _, rfl, rfl, rfl, rfl, rfl, rfl⟩

/-- C1 witness: a concrete first reply to comment 100 on `sampleState`. -/
theorem create_new_reply_comment_witness :
    (find_review_request sampleState 1).isSome = true ∧
    find_reply sampleState 10 20 = some ⟨20, some 10⟩ ∧
    20 ∈ [20] ∧
    find_orig sampleState 100 = some ⟨100, 7, none, 10, "orig", .plain⟩ ∧
    existing_q sampleState 10 20 ⟨100, 7, none, 10, "orig", .plain⟩
      ⟨20, some 10⟩ = [] ∧
    ∃ c s2,
      create sampleState [20] 1 10 20 100 ⟨some "hi", none⟩ =
        .created c s2 ∧
      c.file_attachment =
        (⟨100, 7, none, 10, "orig", .plain⟩ : Comment).file_attachment ∧
      c.reply_to = some (⟨100, 7, none, 10, "orig", .plain⟩ : Comment).id ∧
      c.review = (⟨20, some 10⟩ : Review).id ∧
      s2.comments = sampleState.comments ++ [c] ∧
      s2.reply_saves = sampleState.reply_saves + 1 :=
  ⟨rfl, rfl, by decide, rfl, rfl,
    create_new_reply_comment sampleState [20] 1 10 20 100 ⟨some "hi", none⟩
      ⟨20, some 10⟩ ⟨100, 7, none, 10, "orig", .plain⟩
      rfl rfl (by decide) rfl rfl⟩

/-- C3: when the review request and reply resolve and the caller has modify
permission but `reply_to_id` names no existing original comment, `create`
answers `InvalidFormData` naming the field `reply_to_id`, and the state is
untouched. -/
theorem create_invalid_reply_to_id
    (s : State) (permitted : List Nat)
    (rrid review_id reply_id reply_to_id : Nat) (fields : CommentFields)
    (reply : Review)
    (hrr : (find_review_request s rrid).isSome = true)
    (hreply : find_reply s review_id reply_id = some reply)
    (hperm : reply_id ∈ permitted)
    (horig : find_orig s reply_to_id = none) :
    create s permitted rrid review_id reply_id reply_to_id fields =
      .invalidFormData "reply_to_id" ∧
    createState (create s permitted rrid review_id reply_id reply_to_id fields)
      s = s := by
  obtain ⟨rr, hrr2⟩ := Option.isSome_iff_exists.mp hrr
  have h : create s permitted rrid review_id reply_id reply_to_id fields =
      .invalidFormData "reply_to_id" := by
    simp only [create, hrr2, hreply, horig, if_pos hperm]
  exact ⟨h, by rw [h]; rfl⟩

/-- C3 witness: comment id 999 does not exist in `sampleState`. -/
theorem create_invalid_reply_to_id_witness :
    (find_review_request sampleState 1).isSome = true ∧
    find_reply sampleState 10 20 = some ⟨20, some 10⟩ ∧
    20 ∈ [20] ∧
    find_orig sampleState 999 = none ∧
    (create sampleState [20] 1 10 20 999 ⟨some "hi", none⟩ =
      .invalidFormData "reply_to_id" ∧
    createState (create sampleState [20] 1 10 20 999 ⟨some "hi", none⟩)
      sampleState = sampleState) :=
  ⟨rfl, rfl, by decide, rfl,
    create_invalid_reply_to_id sampleState [20] 1 10 20 999 ⟨some "hi", none⟩
      ⟨20, some 10⟩ rfl rfl (by decide) rfl⟩

/-- C4: when the caller lacks modify permission on the resolved reply, both
`create` and `update` answer `PermissionDenied` and mutate nothing — the
permission check runs before any write and before the shared update
routine. -/
theorem no_permission_no_mutation
    (s : State) (permitted : List Nat)
    (rrid review_id reply_id reply_to_id comment_id : Nat)
    (fields fields2 : CommentFields) (reply : Review) (c : Comment)
    (hrr : (find_review_request s rrid).isSome = true)
    (hreply : find_reply s review_id reply_id = some reply)
    (hc : find_file_comment s review_id reply_id comment_id = some c)
    (hperm : reply_id ∉ permitted) :
    create s permitted rrid review_id reply_id reply_to_id fields =
      .permissionDenied ∧
    update s permitted rrid review_id reply_id comment_id fields2 =
      .permissionDenied ∧
    createState (create s permitted rrid review_id reply_id reply_to_id fields)
      s = s ∧
    updateState (update s permitted rrid review_id reply_id comment_id fields2)
      s = s := by
  obtain ⟨rr, hrr2⟩ := Option.isSome_iff_exists.mp hrr
  have h1 : create s permitted rrid review_id reply_id reply_to_id fields =
      .permissionDenied := by
    simp only [create, hrr2, hreply, if_neg hperm]
  have h2 : update s permitted rrid review_id reply_id comment_id fields2 =
      .permissionDenied := by
    simp only [update, hrr2, hreply, hc, if_neg hperm]
  exact ⟨h1, h2, by simp [h1, createState], by simp [h2, updateState]⟩

/-- C4 witness: an unpermitted caller against `sampleState2` (comment 101
resolves, yet both verbs answer `PermissionDenied` and leave the state). -/
theorem no_permission_no_mutation_witness :
    (find_review_request sampleState2 1).isSome = true ∧
    find_reply sampleState2 10 20 = some ⟨20, some 10⟩ ∧
    find_file_comment sampleState2 10 20 101 =
      some ⟨101, 7, some 100, 20, "first reply", .plain⟩ ∧
    20 ∉ ([] : List Nat) ∧
    (create sampleState2 [] 1 10 20 100 ⟨some "x", none⟩ =
      .permissionDenied ∧
    update sampleState2 [] 1 10 20 101 ⟨some "x", none⟩ =
      .permissionDenied ∧
    createState (create sampleState2 [] 1 10 20 100 ⟨some "x", none⟩)
      sampleState2 = sampleState2 ∧
    updateState (update sampleState2 [] 1 10 20 101 ⟨some "x", none⟩)
      sampleState2 = sampleState2) :=
  ⟨rfl, rfl, rfl, by decide,
    no_permission_no_mutation sampleState2 [] 1 10 20 100 101
      ⟨some "x", none⟩ ⟨some "x", none⟩ ⟨20, some 10⟩
      ⟨101, 7, some 100, 20, "first reply", .plain⟩
      rfl rfl rfl (by decide)⟩

/-- C6: a `create` whose review request or reply does not resolve, and an
`update` whose review request, reply or target comment does not resolve,
answer `NotFound` and leave the state untouched (no partial state). -/
theorem missing_entities_not_found
    (s : State) (permitted : List Nat)
    (rrid review_id reply_id reply_to_id comment_id : Nat)
    (fields fields2 : CommentFields) :
    ((find_review_request s rrid = none ∨
        find_reply s review_id reply_id = none) →
      create s permitted rrid review_id reply_id reply_to_id fields =
        .notFound ∧
      createState
        (create s permitted rrid review_id reply_id reply_to_id fields) s = s) ∧
    ((find_review_request s rrid = none ∨
        find_reply s review_id reply_id = none ∨
        find_file_comment s review_id reply_id comment_id = none) →
      update s permitted rrid review_id reply_id comment_id fields2 =
        .notFound ∧
      updateState
        (update s permitted rrid review_id reply_id comment_id fields2) s = s)
    := by
  constructor
  · intro hmiss
    have h1 : create s permitted rrid review_id reply_id reply_to_id fields =
        .notFound := by
      rcases hmiss with h | h
      · simp only [create, h]
      · cases hfr : find_review_request s rrid with
        | none => simp only [create, hfr]
        | some rr => simp only [create, hfr, h]
    exact ⟨h1, by simp [h1, createState]⟩
  · intro hmiss
    have h1 : update s permitted rrid review_id reply_id comment_id fields2 =
        .notFound := by
      rcases hmiss with h | h | h
      · simp only [update, h]
      · cases hfr : find_review_request s rrid with
        | none => simp only [update, hfr]
        | some rr => simp only [update, hfr, h]
      · cases hfr : find_review_request s rrid with
        | none => simp only [update, hfr]
        | some rr =>
          cases hrp : find_reply s review_id reply_id with
          | none => simp only [update, hfr, hrp]
          | some reply => simp only [update, hfr, hrp, h]
    exact ⟨h1, by simp [h1, updateState]⟩

/-- C6 witness: review request 42 does not exist in `sampleState`, so both
verbs answer `NotFound` and leave the state. -/
theorem missing_entities_not_found_witness :
    find_review_request sampleState 42 = none ∧
    (create sampleState [20] 42 10 20 100 ⟨some "x", none⟩ = .notFound ∧
      createState (create sampleState [20] 42 10 20 100 ⟨some "x", none⟩)
        sampleState = sampleState) ∧
    (update sampleState [20] 42 10 20 100 ⟨some "x", none⟩ = .notFound ∧
      updateState (update sampleState [20] 42 10 20 100 ⟨some "x", none⟩)
        sampleState = sampleState) :=
  ⟨rfl,
    (missing_entities_not_found sampleState [20] 42 10 20 100 100
      ⟨some "x", none⟩ ⟨some "x", none⟩).1 (Or.inl rfl),
    (missing_entities_not_found sampleState [20] 42 10 20 100 100
      ⟨some "x", none⟩ ⟨some "x", none⟩).2 (Or.inl rfl)⟩

/-- C10: in `update` entity resolution precedes the permission check, so a
missing target comment yields `NotFound` even for an unpermitted caller; in
`create` the permission check precedes `reply_to_id` validation, so an
unpermitted caller gets `PermissionDenied` even with an invalid
`reply_to_id`. -/
theorem resolution_permission_order
    (s : State) (permitted : List Nat)
    (rrid review_id reply_id reply_to_id comment_id : Nat)
    (fields fields2 : CommentFields) (reply : Review)
    (hrr : (find_review_request s rrid).isSome = true)
    (hreply : find_reply s review_id reply_id = some reply)
    (hperm : reply_id ∉ permitted)
    (hcm : find_file_comment s review_id reply_id comment_id = none)
    (hom : find_orig s reply_to_id = none) :
    update s permitted rrid review_id reply_id comment_id fields2 =
      .notFound ∧
    create s permitted rrid review_id reply_id reply_to_id fields =
      .permissionDenied := by
  obtain ⟨rr, hrr2⟩ := Option.isSome_iff_exists.mp hrr
  exact ⟨by simp only [update, hrr2, hreply, hcm],
         by simp only [create, hrr2, hreply, if_neg hperm]⟩

/-- C10 witness: unpermitted caller, missing comment 999 — `update` answers
`NotFound`, `create` answers `PermissionDenied`. -/
theorem resolution_permission_order_witness :
    (find_review_request sampleState 1).isSome = true ∧
    find_reply sampleState 10 20 = some ⟨20, some 10⟩ ∧
    20 ∉ ([] : List Nat) ∧
    find_file_comment sampleState 10 20 999 = none ∧
    find_orig sampleState 999 = none ∧
    (update sampleState [] 1 10 20 999 ⟨some "x", none⟩ = .notFound ∧
    create sampleState [] 1 10 20 999 ⟨some "x", none⟩ =
      .permissionDenied) :=
  ⟨rfl, rfl, by decide, rfl, rfl,
    resolution_permission_order sampleState [] 1 10 20 999 999
      ⟨some "x", none⟩ ⟨some "x", none⟩ ⟨20, some 10⟩
      rfl rfl (by decide) rfl rfl⟩

/-- C7: on a plain-text comment, switching `text_type` to markdown without
new text escapes the existing text; on a markdown comment, switching to
plain without new text unescapes it; and the round trip (switch to markdown,
then back to plain) restores the original plain text. -/
theorem text_type_toggle_escaping (c : Comment) (h : c.text_type = .plain) :
    (update_comment c ⟨none, some .markdown⟩).text = escapeMarkdown c.text ∧
    (update_comment c ⟨none, some .markdown⟩).text_type = .markdown ∧
    (∀ d : Comment, d.text_type = .markdown →
      (update_comment d ⟨none, some .plain⟩).text = unescapeMarkdown d.text) ∧
    (update_comment (update_comment c ⟨none, some .markdown⟩)
      ⟨none, some .plain⟩).text = c.text := by
  refine ⟨?_, ?_, ?_, ?_⟩
  · simp [update_comment, h]
  · simp [update_comment]
  · intro d hd
    simp [update_comment, hd]
  · simp [update_comment, h, unescapeMarkdown_escapeMarkdown]

/-- C7 witness: the toggle on a concrete plain comment containing markdown
syntax. -/
theorem text_type_toggle_escaping_witness :
    (⟨5, 7, some 100, 20, "a*b", .plain⟩ : Comment).text_type = .plain ∧
    ((update_comment ⟨5, 7, some 100, 20, "a*b", .plain⟩
        ⟨none, some .markdown⟩).text =
      escapeMarkdown (⟨5, 7, some 100, 20, "a*b", .plain⟩ : Comment).text ∧
    (update_comment ⟨5, 7, some 100, 20, "a*b", .plain⟩
        ⟨none, some .markdown⟩).text_type = .markdown ∧
    (∀ d : Comment, d.text_type = .markdown →
      (update_comment d ⟨none, some .plain⟩).text = unescapeMarkdown d.text) ∧
    (update_comment (update_comment ⟨5, 7, some 100, 20, "a*b", .plain⟩
        ⟨none, some .markdown⟩) ⟨none, some .plain⟩).text =
      (⟨5, 7, some 100, 20, "a*b", .plain⟩ : Comment).text) :=
  ⟨rfl, text_type_toggle_escaping ⟨5, 7, some 100, 20, "a*b", .plain⟩ rfl⟩

lemma replace_comment_map_id {s : State} {c c2 : Comment} (hid : c2.id = c.id) :
    (replace_comment s c.id c2).comments.map Comment.id =
      s.comments.map Comment.id := by
  show (s.comments.map fun d => if d.id == c.id then c2 else d).map Comment.id
      = s.comments.map Comment.id
  rw [List.map_map]
  apply List.map_congr_left
  intro d _
  by_cases h : d.id = c.id
  · simp [Function.comp, h, hid]
  · simp [Function.comp, h]

/-- The single element of a non-empty lookup-before-insert query is a stored
comment of the queried pair. -/
lemma of_mem_existing_q {s : State} {review_id reply_id : Nat} {orig : Comment}
    {reply : Review} {c : Comment}
    (hc : c ∈ existing_q s review_id reply_id orig reply) :
    c ∈ s.comments ∧ c.review = reply.id ∧ c.reply_to = some orig.id := by
  rw [existing_q, List.mem_filter] at hc
  obtain ⟨hq, hpair⟩ := hc
  rw [get_queryset, List.mem_filter] at hq
  simp only [Bool.and_eq_true, beq_iff_eq] at hpair
  exact ⟨hq.1, hpair.2, hpair.1⟩

/-- Updating one stored comment in place, preserving its id, owning review
and reply target, preserves well-formedness and pair-uniqueness. -/
lemma inv_replace {s : State} {c c2 : Comment} (hc : c ∈ s.comments)
    (hid : c2.id = c.id) (hrev : c2.review = c.review)
    (hrt : c2.reply_to = c.reply_to)
    (hwf : StateWF s) (hu : uniquePairs s) :
    StateWF (replace_comment s c.id c2) ∧
      uniquePairs (replace_comment s c.id c2) := by
  obtain ⟨hndr, hndc, hlt⟩ := hwf
  have hmapid := replace_comment_map_id (s := s) hid
  refine ⟨⟨hndr, by rw [hmapid]; exact hndc, ?_⟩, ?_⟩
  · intro e he
    have : e.id ∈ (replace_comment s c.id c2).comments.map Comment.id :=
      List.mem_map_of_mem _ he
    rw [hmapid, List.mem_map] at this
    obtain ⟨d, hd, hde⟩ := this
    rw [← hde]
    exact hlt d hd
  · intro rv rt
    have : pairCount (replace_comment s c.id c2) rv rt = pairCount s rv rt := by
      show ((s.comments.map fun d => if d.id == c.id then c2 else d).filter
          (fun x => x.review == rv && x.reply_to == some rt)).length =
        (s.comments.filter
          (fun x => x.review == rv && x.reply_to == some rt)).length
      simp only [← List.countP_eq_length_filter]
      rw [List.countP_map]
      apply List.countP_congr
      intro d hd
      by_cases h : d.id = c.id
      · have hdc : d = c := comment_eq_of_id_eq hndc hc hd h
        subst hdc
        simp [Function.comp, hrev, hrt]
      · simp [Function.comp, h]
    rw [this]
    exact hu rv rt

/-- Inserting a fresh comment for a pair whose lookup-before-insert query
came back empty preserves well-formedness and pair-uniqueness. -/
lemma inv_insert {s : State} {review_id reply_id : Nat} {reply : Review}
    {orig nc : Comment}
    (hreply : find_reply s review_id reply_id = some reply)
    (hnc_rev : nc.review = reply.id) (hnc_rt : nc.reply_to = some orig.id)
    (hnc_id : nc.id = s.next_id)
    (hq : existing_q s review_id reply_id orig reply = [])
    (hwf : StateWF s) (hu : uniquePairs s) :
    StateWF { s with comments := s.comments ++ [nc],
                     next_id := s.next_id + 1,
                     reply_saves := s.reply_saves + 1 } ∧
    uniquePairs { s with comments := s.comments ++ [nc],
                         next_id := s.next_id + 1,
                         reply_saves := s.reply_saves + 1 } := by
  obtain ⟨hndr, hndc, hlt⟩ := hwf
  refine ⟨⟨hndr, ?_, ?_⟩, ?_⟩
  · show ((s.comments ++ [nc]).map Comment.id).Nodup
    rw [List.map_append, List.nodup_append]
    refine ⟨hndc, by simp, ?_⟩
    intro a ha hb
    simp only [List.map_cons, List.map_nil, List.mem_singleton] at hb
    rw [List.mem_map] at ha
    obtain ⟨d, hd, hda⟩ := ha
    have := hlt d hd
    omega
  · intro e he
    show e.id < s.next_id + 1
    have he2 : e ∈ s.comments ++ [nc] := he
    rw [List.mem_append] at he2
    rcases he2 with he2 | he2
    · have := hlt e he2
      omega
    · rw [List.mem_singleton] at he2
      subst he2
      omega
  · intro rv rt
    show ((s.comments ++ [nc]).filter _).length ≤ 1
    rw [List.filter_append]
    by_cases hp : (nc.review == rv && nc.reply_to == some rt) = true
    · simp only [Bool.and_eq_true, beq_iff_eq] at hp
      have hflt : s.comments.filter
          (fun d => d.review == rv && d.reply_to == some rt) = [] := by
        rw [List.filter_eq_nil_iff]
        intro d hd hpd
        simp only [Bool.and_eq_true, beq_iff_eq] at hpd
        have hdmem : d ∈ existing_q s review_id reply_id orig reply :=
          mem_existing_q hndr hreply hd (by rw [hpd.1, ← hp.1, hnc_rev])
            (by rw [hpd.2, ← hp.2, hnc_rt])
        rw [hq] at hdmem
        cases hdmem
      rw [hflt]
      simp [hp.1, hp.2]
    · have : [nc].filter (fun d => d.review == rv && d.reply_to == some rt)
          = [] := by
        rw [List.filter_eq_nil_iff]
        intro d hd
        rw [List.mem_singleton] at hd
        subst hd
        exact fun hb => hp hb
      rw [this, List.append_nil]
      exact hu rv rt

/-- C8: a successful `update` may change only `text` and `text_type`: the
returned comment keeps the target comment's id, `reply_to`, owning review
and file attachment; every other stored comment is untouched and no row is
added or removed. -/
theorem update_only_text_fields
    (s : State) (permitted : List Nat)
    (rrid review_id reply_id comment_id : Nat) (fields : CommentFields)
    (c c2 : Comment) (s2 : State)
    (hc : find_file_comment s review_id reply_id comment_id = some c)
    (hupd : update s permitted rrid review_id reply_id comment_id fields =
      .ok c2 s2) :
    c2.id = c.id ∧ c2.reply_to = c.reply_to ∧ c2.review = c.review ∧
    c2.file_attachment = c.file_attachment ∧
    c2.text = (update_comment c fields).text ∧
    c2.text_type = (update_comment c fields).text_type ∧
    s2.reviews = s.reviews ∧
    s2.comments.map Comment.id = s.comments.map Comment.id ∧
    (∀ d ∈ s.comments, d.id ≠ c.id → d ∈ s2.comments) := by
  cases hfr : find_review_request s rrid with
  | none => simp [update, hfr] at hupd
  | some rr =>
    cases hrp : find_reply s review_id reply_id with
    | none => simp [update, hfr, hrp] at hupd
    | some reply =>
      by_cases hp : reply_id ∈ permitted
      · simp only [update, hfr, hrp, hc, if_pos hp] at hupd
        injection hupd with h1 h2
        subst h1
        subst h2
        refine ⟨rfl, rfl, rfl, rfl, rfl, rfl, rfl,
          replace_comment_map_id rfl, ?_⟩
        intro d hd hne
        have hfd : (if d.id == c.id then update_comment c fields else d)
            = d := by
          simp [hne]
        exact hfd ▸ List.mem_map_of_mem _ hd
      · simp only [update, hfr, hrp, hc, if_neg hp] at hupd
        cases hupd

/-- C8 witness: a concrete `update` of comment 101 changing text and type. -/
theorem update_only_text_fields_witness :
    find_file_comment sampleState2 10 20 101 =
      some ⟨101, 7, some 100, 20, "first reply", .plain⟩ ∧
    update sampleState2 [20] 1 10 20 101 ⟨some "x", some .markdown⟩ =
      .ok ⟨101, 7, some 100, 20, "x", .markdown⟩
        { review_requests := [1],
          reviews := [⟨10, none⟩, ⟨20, some 10⟩],
          comments := [⟨100, 7, none, 10, "orig", .plain⟩,
                       ⟨101, 7, some 100, 20, "x", .markdown⟩],
          next_id := 102,
          reply_saves := 1 } ∧
    (⟨101, 7, some 100, 20, "x", .markdown⟩ : Comment).id =
      (⟨101, 7, some 100, 20, "first reply", .plain⟩ : Comment).id ∧
    (⟨101, 7, some 100, 20, "x", .markdown⟩ : Comment).reply_to =
      (⟨101, 7, some 100, 20, "first reply", .plain⟩ : Comment).reply_to ∧
    ({ review_requests := [1],
       reviews := [⟨10, none⟩, ⟨20, some 10⟩],
       comments := [⟨100, 7, none, 10, "orig", .plain⟩,
                    ⟨101, 7, some 100, 20, "x", .markdown⟩],
       next_id := 102,
       reply_saves := 1 } : State).comments.map Comment.id =
      sampleState2.comments.map Comment.id :=
  ⟨rfl, rfl,
    (update_only_text_fields sampleState2 [20] 1 10 20 101
      ⟨some "x", some .markdown⟩ ⟨101, 7, some 100, 20, "first reply", .plain⟩
      ⟨101, 7, some 100, 20, "x", .markdown⟩ _ rfl rfl).1,
    (update_only_text_fields sampleState2 [20] 1 10 20 101
      ⟨some "x", some .markdown⟩ ⟨101, 7, some 100, 20, "first reply", .plain⟩
      ⟨101, 7, some 100, 20, "x", .markdown⟩ _ rfl rfl).2.1,
    (update_only_text_fields sampleState2 [20] 1 10 20 101
      ⟨some "x", some .markdown⟩ ⟨101, 7, some 100, 20, "first reply", .plain⟩
      ⟨101, 7, some 100, 20, "x", .markdown⟩ _ rfl rfl).2.2.2.2.2.2.2.1⟩

/-- C9: on the existing-comment (303) path of `create`, the reply itself is
untouched: the review rows are unchanged, `reply.save()` is not called, no
comment is added to the collection, and the existing comment is updated in
place. -/
theorem create_existing_leaves_reply_alone
    (s : State) (permitted : List Nat)
    (rrid review_id reply_id reply_to_id : Nat) (fields : CommentFields)
    (reply : Review) (orig c : Comment)
    (hrr : (find_review_request s rrid).isSome = true)
    (hreply : find_reply s review_id reply_id = some reply)
    (hperm : reply_id ∈ permitted)
    (horig : find_orig s reply_to_id = some orig)
    (hex : existing_q s review_id reply_id orig reply = [c]) :
    ∃ s2, create s permitted rrid review_id reply_id reply_to_id fields =
        .seeOther (update_comment c fields) c.id s2 ∧
      s2.reviews = s.reviews ∧
      s2.reply_saves = s.reply_saves ∧
      s2.comments.map Comment.id = s.comments.map Comment.id ∧
      s2.comments = s.comments.map
        (fun d => if d.id == c.id then update_comment c fields else d) := by
  obtain ⟨rr, hrr2⟩ := Option.isSome_iff_exists.mp hrr
  refine ⟨replace_comment s c.id (update_comment c fields), ?_, rfl, rfl,
    replace_comment_map_id rfl, rfl⟩
  simp only [create, hrr2, hreply, horig, hex, if_pos hperm]
  rfl

/-- C9 witness: the 303 path on `sampleState2` leaves reviews, `reply_saves`
and the stored ids unchanged. -/
theorem create_existing_leaves_reply_alone_witness :
    (find_review_request sampleState2 1).isSome = true ∧
    find_reply sampleState2 10 20 = some ⟨20, some 10⟩ ∧
    20 ∈ [20] ∧
    find_orig sampleState2 100 = some ⟨100, 7, none, 10, "orig", .plain⟩ ∧
    existing_q sampleState2 10 20 ⟨100, 7, none, 10, "orig", .plain⟩
      ⟨20, some 10⟩ = [⟨101, 7, some 100, 20, "first reply", .plain⟩] ∧
    ∃ s2, create sampleState2 [20] 1 10 20 100 ⟨some "second", none⟩ =
        .seeOther
          (update_comment ⟨101, 7, some 100, 20, "first reply", .plain⟩
            ⟨some "second", none⟩)
          (⟨101, 7, some 100, 20, "first reply", .plain⟩ : Comment).id s2 ∧
      s2.reviews = sampleState2.reviews ∧
      s2.reply_saves = sampleState2.reply_saves ∧
      s2.comments.map Comment.id = sampleState2.comments.map Comment.id ∧
      s2.comments = sampleState2.comments.map
        (fun d => if d.id == (⟨101, 7, some 100, 20, "first reply", .plain⟩
            : Comment).id
          then update_comment ⟨101, 7, some 100, 20, "first reply", .plain⟩
            ⟨some "second", none⟩
          else d) :=
  ⟨rfl, rfl, by decide, rfl, rfl,
    create_existing_leaves_reply_alone sampleState2 [20] 1 10 20 100
      ⟨some "second", none⟩ ⟨20, some 10⟩ ⟨100, 7, none, 10, "orig", .plain⟩
      ⟨101, 7, some 100, 20, "first reply", .plain⟩
      rfl rfl (by decide) rfl rfl⟩

/-- Every `create` call preserves primary-key well-formedness and the
at-most-one-reply-comment-per-pair invariant, whatever its outcome. -/
lemma create_preserves_inv (s : State) (permitted : List Nat)
    (rrid review_id reply_id reply_to_id : Nat) (fields : CommentFields)
    (hwf : StateWF s) (hu : uniquePairs s) :
    StateWF (createState
      (create s permitted rrid review_id reply_id reply_to_id fields) s) ∧
    uniquePairs (createState
      (create s permitted rrid review_id reply_id reply_to_id fields) s) := by
  cases hfr : find_review_request s rrid with
  | none =>
    simp only [create, hfr, createState]
    exact ⟨hwf, hu⟩
  | some rr =>
    cases hrp : find_reply s review_id reply_id with
    | none =>
      simp only [create, hfr, hrp, createState]
      exact ⟨hwf, hu⟩
    | some reply =>
      by_cases hp : reply_id ∈ permitted
      · cases ho : find_orig s reply_to_id with
        | none =>
          simp only [create, hfr, hrp, ho, if_pos hp, createState]
          exact ⟨hwf, hu⟩
        | some orig =>
          rcases hq : existing_q s review_id reply_id orig reply
            with _ | ⟨c, rest⟩
          · simp only [create, hfr, hrp, ho, hq, if_pos hp, createState]
            exact inv_insert hrp rfl rfl rfl hq hwf hu
          · cases rest with
            | nil =>
              simp only [create, hfr, hrp, ho, hq, if_pos hp, createState]
              have hcmem : c ∈ existing_q s review_id reply_id orig reply := by
                rw [hq]
                exact List.mem_cons_self c []
              exact inv_replace (of_mem_existing_q hcmem).1 rfl rfl rfl hwf hu
            | cons c3 rest2 =>
              simp only [create, hfr, hrp, ho, hq, if_pos hp, createState]
              exact ⟨hwf, hu⟩
      · simp only [create, hfr, hrp, if_neg hp, createState]
        exact ⟨hwf, hu⟩

/-- C2: when a reply comment already exists for the pair, `create` does not
insert a second row: it updates the existing comment in place and answers
303 with a `Location` naming that comment's id; and every `create` call
preserves the at-most-one-reply-comment-per-pair invariant, so any sequence
of creates keeps at most one reply comment per `(review, reply_to)` pair. -/
theorem create_existing_redirect_unique
    (s : State) (permitted : List Nat)
    (rrid review_id reply_id reply_to_id : Nat) (fields : CommentFields)
    (reply : Review) (orig c : Comment)
    (hrr : (find_review_request s rrid).isSome = true)
    (hreply : find_reply s review_id reply_id = some reply)
    (hperm : reply_id ∈ permitted)
    (horig : find_orig s reply_to_id = some orig)
    (hex : existing_q s review_id reply_id orig reply = [c]) :
    create s permitted rrid review_id reply_id reply_to_id fields =
      .seeOther (update_comment c fields) c.id
        (replace_comment s c.id (update_comment c fields)) ∧
    (replace_comment s c.id (update_comment c fields)).comments.map Comment.id
      = s.comments.map Comment.id ∧
    (∀ (s0 : State) (permitted0 : List Nat)
        (rrid0 review_id0 reply_id0 reply_to_id0 : Nat)
        (fields0 : CommentFields),
      StateWF s0 → uniquePairs s0 →
      StateWF (createState (create s0 permitted0 rrid0 review_id0 reply_id0
        reply_to_id0 fields0) s0) ∧
      uniquePairs (createState (create s0 permitted0 rrid0 review_id0 reply_id0
        reply_to_id0 fields0) s0)) := by
  obtain ⟨rr, hrr2⟩ := Option.isSome_iff_exists.mp hrr
  refine ⟨?_, replace_comment_map_id rfl, ?_⟩
  · simp only [create, hrr2, hreply, horig, hex, if_pos hperm]
    rfl
  · intro s0 permitted0 rrid0 review_id0 reply_id0 reply_to_id0 fields0 hwf hu
    exact create_preserves_inv s0 permitted0 rrid0 review_id0 reply_id0
      reply_to_id0 fields0 hwf hu

/-- C2 witness: a repeated create against `sampleState2` redirects to comment
101 without a new row, and the uniqueness invariant holds afterwards. -/
theorem create_existing_redirect_unique_witness :
    (find_review_request sampleState2 1).isSome = true ∧
    find_reply sampleState2 10 20 = some ⟨20, some 10⟩ ∧
    20 ∈ [20] ∧
    find_orig sampleState2 100 = some ⟨100, 7, none, 10, "orig", .plain⟩ ∧
    existing_q sampleState2 10 20 ⟨100, 7, none, 10, "orig", .plain⟩
      ⟨20, some 10⟩ = [⟨101, 7, some 100, 20, "first reply", .plain⟩] ∧
    create sampleState2 [20] 1 10 20 100 ⟨some "second", none⟩ =
      .seeOther
        (update_comment ⟨101, 7, some 100, 20, "first reply", .plain⟩
          ⟨some "second", none⟩)
        (⟨101, 7, some 100, 20, "first reply", .plain⟩ : Comment).id
        (replace_comment sampleState2
          (⟨101, 7, some 100, 20, "first reply", .plain⟩ : Comment).id
          (update_comment ⟨101, 7, some 100, 20, "first reply", .plain⟩
            ⟨some "second", none⟩)) ∧
    (replace_comment sampleState2
      (⟨101, 7, some 100, 20, "first reply", .plain⟩ : Comment).id
      (update_comment ⟨101, 7, some 100, 20, "first reply", .plain⟩
        ⟨some "second", none⟩)).comments.map Comment.id =
      sampleState2.comments.map Comment.id ∧
    StateWF (createState
      (create sampleState2 [20] 1 10 20 100 ⟨some "second", none⟩)
      sampleState2) ∧
    uniquePairs (createState
      (create sampleState2 [20] 1 10 20 100 ⟨some "second", none⟩)
      sampleState2) := by
  have h := create_existing_redirect_unique sampleState2 [20] 1 10 20 100
    ⟨some "second", none⟩ ⟨20, some 10⟩ ⟨100, 7, none, 10, "orig", .plain⟩
    ⟨101, 7, some 100, 20, "first reply", .plain⟩
    rfl rfl (by decide) rfl rfl
  exact ⟨rfl, rfl, by decide, rfl, rfl, h.1, h.2.1,
    h.2.2 sampleState2 [20] 1 10 20 100 ⟨some "second", none⟩
      ⟨by decide, by decide, by decide⟩ (uniquePairs_of_B (by decide))⟩

end ReviewReply
